import Mathlib

/-!
Shallow embedding of the capture/control/conversion core of `src/v4l2.c`
(the Tcl "v4l2" command implementation).  Pure C helpers become Lean
functions on `Int`/`Nat`/`List`; the stateful session structure `V4L2C`
becomes a record, and each operation becomes an explicit state
transformer.  Interactions with the kernel (ioctl results) are passed in
as oracle values, mirroring the exact order in which the C code consults
them.
-/

namespace V4l2

/-- Result of a command procedure: `TCL_OK` or `TCL_ERROR`. -/
inductive TclRet
  | ok
  | error
  deriving Repr, DecidableEq

/-- The session fields of the `V4L2C` control structure that the modelled
operations read or write.  `running` is an `int` (`> 0` capturing, `0`
stopped, `-1` error), `stalled`/`bufdone` are 0/1 ints modelled as `Bool`,
`bufrdy` is a buffer index or `-1`, `counter0`/`counter1` are
`counters[0]` (frames captured) and `counters[1]` (frames consumed). -/
structure V4L2C where
  running : Int := 0
  stalled : Bool := false
  isLoopDev : Bool := false
  format : Int := 0
  wantFormat : Int := 0
  greyshift : Int := 4
  mirror : Int := 0
  rotate : Int := 0
  bufrdy : Int := -1
  bufdone : Bool := false
  width : Int := 640
  height : Int := 320
  fps : Int := 15
  counter0 : Nat := 0
  counter1 : Nat := 0
  nvbufs : Nat := 0
  deriving Repr, DecidableEq

/-- Session state right after `v4l2 open` (the `ckalloc`/`memset` plus the
explicit field assignments around line 3300 of `v4l2.c`); width, height
and fps come from the device. -/
def openState (w h fps : Int) : V4L2C :=
  { width := w, height := h, fps := fps }

/-- `StopCapture`: stream off, unmap and release buffers, reset the
ready/stalled/done markers when capturing; always returns `TCL_OK`.  The
counters are left untouched. -/
def StopCapture (c : V4L2C) : V4L2C × TclRet :=
  if c.running > 0 then
    ({ c with running := 0, stalled := false, bufrdy := -1, bufdone := false }, .ok)
  else
    (c, .ok)

/-- Outcome of the non-blocking `VIDIOC_DQBUF` in `BufferReady`. -/
inductive DqResult
  | again
  | fail
  | ok (index : Nat) (sequence : Int)
  deriving Repr, DecidableEq

/-- What `BufferReady` hands to the Tcl callback: nothing (early return on
the first stall), a frame sequence number, or the "error" marker. -/
inductive Notify
  | quiet
  | frame (sequence : Int)
  | error
  deriving Repr, DecidableEq

/-- The `captureError` label in `BufferReady`: stop-and-error cleanup. -/
def captureError (c : V4L2C) : V4L2C :=
  let c := (StopCapture c).1
  { c with running := -1, stalled := false }

/-- `BufferReady`, the file handler run when the device becomes readable.
`dq` is the `VIDIOC_DQBUF` outcome and `requeueOk` the outcome of the
`VIDIOC_QBUF` requeue of a displaced older buffer (consulted only when
such a buffer exists). -/
def BufferReady (c : V4L2C) (dq : DqResult) (requeueOk : Bool) : V4L2C × Notify :=
  match dq with
  | .again =>
      if c.stalled then
        (captureError c, .error)
      else
        ({ c with stalled := true }, .quiet)
  | .fail => (captureError c, .error)
  | .ok index sequence =>
      let c := { c with stalled := false, bufdone := false, counter0 := c.counter0 + 1 }
      if c.bufrdy ≥ (0 : Int) then
        let c := { c with bufrdy := (index : Int) }
        if requeueOk then (c, .frame sequence) else (captureError c, .error)
      else
        ({ c with bufrdy := (index : Int) }, .frame sequence)

/-- Result of the buffer-count negotiation in `StartCapture`. -/
inductive ReqRes
  | ioctlErr
  | noBufs
  | got (count : Nat)
  deriving Repr, DecidableEq

/-- One traversal of the `while (i < 16)` REQBUFS loop body for each
pending request count, followed by the post-loop recheck of the last
kernel-returned count.  `reqbufs n` is the kernel-returned `req.count`
for a request of `n` buffers (`none` when the ioctl fails). -/
def reqBufsGo (reqbufs : Nat → Option Nat) : List Nat → Nat → ReqRes
  | [], last => if last = 0 ∨ last > 16 then .noBufs else .got last
  | i :: rest, _ =>
      match reqbufs i with
      | none => .ioctlErr
      | some cnt =>
          if cnt = 0 ∨ cnt > 16 then reqBufsGo reqbufs rest cnt
          else .got cnt

/-- The buffer-count negotiation of `StartCapture` (v4l2.c lines 675-703):
`i` starts at 2 and doubles while `i < 16`, so requests are issued for
counts 2, 4 and 8 only; a kernel-returned count in `[1,16]` is accepted,
anything else forces the next doubling, and after the loop the last
returned count is rechecked. -/
def negotiateBuffers (reqbufs : Nat → Option Nat) : ReqRes :=
  reqBufsGo reqbufs [2, 4, 8] 0

/-- The pool negotiation as the claim words it: request counts starting
at 2 and doubling up to and including the hard cap of 16, accepting the
first kernel-returned count in `[1,16]`.  This follows the claim text,
not the source; compare `negotiateBuffers`, whose loop guard `i < 16`
stops before a request for 16 is ever issued. -/
def claimNegotiateBuffers (reqbufs : Nat → Option Nat) : ReqRes :=
  reqBufsGo reqbufs [2, 4, 8, 16] 0

/-- The rotation snapping shared by the `orientation` command (v4l2.c
lines 3354-3371) and `DataToPhoto`: C truncating `%` followed by the
45-degree sector ladder.  `Int.tmod` is C's `%` (truncated division
remainder, negative for negative operands). -/
def snapRotate (degrees : Int) : Int :=
  let d := Int.tmod degrees 360
  if d < 45 then 0
  else if d < 135 then 90
  else if d < 225 then 180
  else if d < 315 then 270
  else 0

/-- The `orientation devid degrees` command with an integer argument:
stores the snapped rotation, touching nothing else. -/
def orientationSet (c : V4L2C) (degrees : Int) : V4L2C :=
  { c with rotate := snapRotate degrees }

/-- `v4l2_fourcc(a,b,c,d)`. -/
def fourcc (a b c d : Nat) : Int :=
  (a : Int) + 256 * b + 65536 * c + 16777216 * d

def pixRGB24 : Int := fourcc 82 71 66 51
def pixBGR24 : Int := fourcc 66 71 82 51
def pixYUYV : Int := fourcc 89 85 89 86
def pixYVYU : Int := fourcc 89 86 89 85
def pixMJPEG : Int := fourcc 77 74 80 71
def pixY16 : Int := fourcc 89 49 54 32
def pixY10 : Int := fourcc 89 49 48 32
def pixGREY : Int := fourcc 71 82 69 89
def pixRGB32 : Int := fourcc 82 71 66 52
def pixBGR32 : Int := fourcc 66 71 82 52

/-- `FormatsNormal`, the capture-device format catalog in test order
(built with `USE_MJPEG` and the Y16/Y10 formats available). -/
def FormatsNormal : List Int :=
  [pixRGB24, pixBGR24, pixYUYV, pixYVYU, pixMJPEG, pixY16, pixY10, pixGREY]

/-- `FormatsLoop`, the loopback-device format catalog in test order. -/
def FormatsLoop : List Int :=
  [pixRGB32, pixBGR32, pixRGB24, pixBGR24, pixYUYV, pixYVYU, pixGREY]

/-- Kernel oracle for one `StartCapture` run: the results the driver
returns for each ioctl, in the order the code issues them.  `sFmt`
receives the requested pixelformat, width and height and returns the
driver-updated triple on success; `gParmCap` is the first `VIDIOC_G_PARM`
(`none` = ioctl failed, otherwise whether `V4L2_CAP_TIMEPERFRAME` is
set); `gParmReadback` is the second `VIDIOC_G_PARM` numerator/denominator
pair; `reqbufs` is as in `negotiateBuffers`; the per-index flags give the
outcomes of `VIDIOC_QUERYBUF`, `v4l2_mmap` and `VIDIOC_QBUF`. -/
structure Kern where
  sFmt : Int → Int → Int → Option (Int × Int × Int)
  gParmCap : Option Bool
  sParmOk : Bool
  gParmReadback : Option (Nat × Nat)
  reqbufs : Nat → Option Nat
  querybufOk : Nat → Bool
  mmapOk : Nat → Bool
  qbufOk : Nat → Bool
  streamonOk : Bool

/-- Result of the format-negotiation phase of `StartCapture`. -/
inductive FmtResult
  | errSet
  | errUnsupported
  | ok (fmt : Int × Int × Int)
  deriving Repr, DecidableEq

/-- The catalog loop: try `VIDIOC_S_FMT` with each catalog entry in
order, first success wins. -/
def tryFirstFmt (k : Kern) (w h : Int) : List Int → Option (Int × Int × Int)
  | [] => none
  | f :: rest =>
      match k.sFmt f w h with
      | some r => some r
      | none => tryFirstFmt k w h rest

/-- Format negotiation of `StartCapture` (lines 604-651): the requested
format is tried first when it is in the active catalog; otherwise the
catalog is walked in order, and the accepted pixelformat must be a
catalog member (`errUnsupported` leaves `running` untouched, `errSet`
puts the session into the error state). -/
def formatPhase (k : Kern) (c : V4L2C) : FmtResult :=
  let tryFmts := if c.isLoopDev then FormatsLoop else FormatsNormal
  let viaCatalog : FmtResult :=
    match tryFirstFmt k c.width c.height tryFmts with
    | none => .errSet
    | some r => if r.1 ∈ tryFmts then .ok r else .errUnsupported
  if c.wantFormat ≠ 0 ∧ c.wantFormat ∈ tryFmts then
    match k.sFmt c.wantFormat c.width c.height with
    | some r => .ok r
    | none => viaCatalog
  else viaCatalog

/-- Frame-interval negotiation of `StartCapture` (lines 653-673): on a
successful `G_PARM` with the time-per-frame capability, set 100/(fps*100),
read back, and replace `fps` by denominator/numerator clamped to `≥ 1`. -/
def negotiateFps (k : Kern) (fps : Int) : Int :=
  match k.gParmCap with
  | none => fps
  | some cap =>
      if cap ∧ k.sParmOk then
        match k.gParmReadback with
        | some (num, den) =>
            if num > 0 then
              let f : Int := (den / num : Nat)
              if f ≤ 0 then 1 else f
            else fps
        | none => fps
      else fps

/-- Outcome of `StartCapture`: final session state and Tcl result. -/
structure StartOut where
  state : V4L2C
  ret : TclRet
  deriving Repr, DecidableEq

/-- `StartCapture` (lines 581-777).  A session already capturing returns
`TCL_OK` unchanged; otherwise format, frame rate and buffer count are
negotiated, the buffers are queried/mapped/queued, streaming starts, and
on success the session fields are (re)initialised — including zeroing
both counters.  Failures mirror the C error paths: all of them except
the accepted-format membership check also set `running := -1`. -/
def StartCapture (k : Kern) (c : V4L2C) : StartOut :=
  if c.running > 0 then ⟨c, .ok⟩
  else
    match formatPhase k c with
    | .errSet => ⟨{ c with running := -1, stalled := false }, .error⟩
    | .errUnsupported => ⟨c, .error⟩
    | .ok (pf, fw, fh) =>
        let c := { c with format := pf,
                          wantFormat := if c.wantFormat = 0 then pf else c.wantFormat }
        let c := { c with fps := negotiateFps k c.fps }
        match negotiateBuffers k.reqbufs with
        | .ioctlErr => ⟨{ c with running := -1, stalled := false }, .error⟩
        | .noBufs => ⟨{ c with running := -1, stalled := false }, .error⟩
        | .got cnt =>
            if (List.range cnt).all fun i => k.querybufOk i && k.mmapOk i then
              if (List.range cnt).all k.qbufOk then
                let c := { c with nvbufs := cnt }
                if k.streamonOk then
                  ⟨{ c with width := fw, height := fh, running := 1, stalled := false,
                            bufrdy := -1, bufdone := false,
                            counter0 := 0, counter1 := 0 }, .ok⟩
                else
                  ⟨{ c with running := -1, stalled := false }, .error⟩
              else
                ⟨{ c with running := -1, stalled := false }, .error⟩
            else
              ⟨{ c with running := -1, stalled := false }, .error⟩

/-- What `GetImage` leaves in the interpreter result. -/
inductive GRes
  | intRes (n : Int)
  | errMsg (msg : String)
  | rawFrame
  deriving Repr, DecidableEq

/-- `GetImage` (lines 1778-2349) at the session level.  `hasPhoto` says a
valid photo image was passed; `renderOk` abstracts the success of the
conversion/allocation and photo-write steps for a ready buffer.  With no
ready buffer the photo variant returns integer 0 and the raw variant
fails with "no image available", in both cases leaving the session
untouched.  Delivering a frame (`done` in the C code) bumps the consumed
counter only when `bufdone` was still clear, and sets it. -/
def GetImage (c : V4L2C) (hasPhoto : Bool) (renderOk : Bool) : V4L2C × GRes :=
  if c.bufrdy < 0 then
    if hasPhoto then (c, .intRes 0) else (c, .errMsg "no image available")
  else if renderOk then
    let c :=
      if c.bufdone then c
      else { c with bufdone := true, counter1 := c.counter1 + 1 }
    (c, if hasPhoto then .intRes 1 else .rawFrame)
  else
    (c, .errMsg "out of memory")

/-- The V4L2 control types the code accepts (`v4l2_queryctrl.type`). -/
inductive CtrlType
  | integer
  | boolean
  | menu
  | button
  | integer64
  deriving Repr, DecidableEq

/-- Whether a `VCTRL` is one of the two synthetic controls, which
`SetControls` recognises by pointer identity (`&v4l2c->fsize`,
`&v4l2c->frate`). -/
inductive CtrlSpecial
  | plain
  | fsize
  | frate
  deriving Repr, DecidableEq

/-- A `VCTRL` entry: the cached `v4l2_queryctrl` fields `SetControls`
consults, the menu-choice list (the `Tcl_DString` as seen through
`GetZZString`: one entry per index from `minimum` to `maximum`, empty
string for an unresolvable placeholder), and the lazily discovered
`useOld` tri-state. -/
structure VCTRL where
  cid : Nat
  ctype : CtrlType
  minimum : Int := 0
  maximum : Int := 0
  readOnly : Bool := false
  inactive : Bool := false
  menu : List String := []
  useOld : Int := 0
  special : CtrlSpecial := .plain
  deriving Repr, DecidableEq

/-- Device oracle for control writes: outcome of `VIDIOC_S_EXT_CTRLS`
(success, failure with `EINVAL`, other failure) and of the legacy
`VIDIOC_S_CTRL`, per control id and value. -/
inductive ExtRes
  | ok
  | einval
  | err
  deriving Repr, DecidableEq

structure Dev where
  extSet : Nat → Int → ExtRes
  oldSet : Nat → Int → Bool

/-- A `Tcl_Obj` as the control code observes it: its string value and
the outcomes of the Tcl value conversions the code may apply to it
(`Tcl_GetIntFromObj`, `Tcl_GetWideIntFromObj`, the `sscanf("%dx%d")`
dimension scan, and the fourcc built from an `"@..."` suffix). -/
structure TObj where
  str : String
  asInt : Option Int := none
  asWide : Option Int := none
  scanWH : Option (Int × Int) := none
  atFmt : Option Int := none
  deriving Repr, DecidableEq

/-- Session-plus-controls state operated on by `SetControls`: the session
record, the `nctrl` name-to-control table, and the device-side control
values by id (written through the set ioctls). -/
structure PState where
  sess : V4L2C
  ctrls : List (String × VCTRL) := []
  vals : List (Nat × Int) := []
  deriving Repr, DecidableEq

/-- `Tcl_FindHashEntry(&v4l2c->nctrl, name)`. -/
def findCtrl (ps : PState) (name : String) : Option VCTRL :=
  (ps.ctrls.find? fun e => e.1 == name).map fun e => e.2

/-- `GetZZString` on the stored menu-choice list: entry `k`, or the
empty string past the end. -/
def getZZ (entries : List String) (k : Nat) : String :=
  (entries.get? k).getD ""

/-- The menu-label search in `SetControls` (lines 1408-1422): scan the
choice indices `0 .. maximum - minimum`, skipping empty entries, for one
whose label equals the given string; found index `k` maps to the wire
value `k + minimum`. -/
def menuFind (c : VCTRL) (s : String) : Option Int :=
  if c.minimum ≤ c.maximum then
    match (List.range ((c.maximum - c.minimum).toNat + 1)).find? fun k =>
        !(getZZ c.menu k == "") && (getZZ c.menu k == s) with
    | some k => some ((k : Int) + c.minimum)
    | none => none
  else none

/-- Store a value written through the device into the value map. -/
def setVal (vals : List (Nat × Int)) (cid : Nat) (v : Int) : List (Nat × Int) :=
  (cid, v) :: vals.filter fun e => !(e.1 == cid)

/-- Record a discovered `useOld` on the named control. -/
def setUseOld (l : List (String × VCTRL)) (name : String) (u : Int) :
    List (String × VCTRL) :=
  l.map fun e => if e.1 == name then (e.1, { e.2 with useOld := u }) else e

/-- The ioctl write at the end of a `SetControls` iteration (lines
1428-1455): legacy path when `useOld > 0`; otherwise the extended write,
with a one-shot legacy retry on `EINVAL` while `useOld < 0` (remembering
the fallback).  A failure is the hard `errorSet` path, reported with the
failing pair's name. -/
def writeCtrl (dev : Dev) (ps : PState) (name : String) (c : VCTRL) (v : Int) :
    Except String PState :=
  if c.useOld > 0 then
    if dev.oldSet c.cid v then .ok { ps with vals := setVal ps.vals c.cid v }
    else .error name
  else
    match dev.extSet c.cid v with
    | .ok => .ok { ps with vals := setVal ps.vals c.cid v }
    | .einval =>
        if c.useOld < 0 then
          if dev.oldSet c.cid v then
            .ok { ps with vals := setVal ps.vals c.cid v,
                          ctrls := setUseOld ps.ctrls name 1 }
          else .error name
        else .error name
    | .err => .error name

/-- One iteration of the `SetControls` pair loop (lines 1328-1456):
unknown names, read-only or inactive controls, failed value conversions
and unmatched menu labels are skipped silently (`continue`); the two
synthetic controls update session fields only; everything else reaches
the device write. -/
def applyPair (dev : Dev) (ps : PState) (name val : TObj) : Except String PState :=
  match findCtrl ps name.str with
  | none => .ok ps
  | some c =>
      if c.readOnly ∨ c.inactive then .ok ps
      else
        match c.special with
        | .fsize =>
            match val.scanWH with
            | some (w, h) =>
                if w > 0 ∧ h > 0 ∧ ps.sess.running ≤ 0 then
                  let sess := { ps.sess with
                                width := w, height := h,
                                wantFormat := val.atFmt.getD 0 }
                  .ok { ps with sess := sess }
                else .ok ps
            | none => .ok ps
        | .frate =>
            match val.asInt with
            | none => .ok ps
            | some fps =>
                if fps > 0 ∧ fps < 200 then
                  .ok { ps with sess := { ps.sess with fps := fps } }
                else .ok ps
        | .plain =>
            match c.ctype with
            | .integer =>
                match val.asInt with
                | none => .ok ps
                | some v => writeCtrl dev ps name.str c v
            | .boolean =>
                match val.asInt with
                | none => .ok ps
                | some v => writeCtrl dev ps name.str c v
            | .integer64 =>
                match val.asWide with
                | none => .ok ps
                | some v => writeCtrl dev ps name.str c v
            | .button => writeCtrl dev ps name.str c 0
            | .menu =>
                match menuFind c val.str with
                | none => .ok ps
                | some v => writeCtrl dev ps name.str c v

/-- `SetControls` over a list of name/value pairs, applied in order;
a hard write error aborts the remaining pairs but keeps the mutations
made so far, and reports the failing pair's name. -/
def SetControls (dev : Dev) : PState → List (TObj × TObj) → PState × Option String
  | ps, [] => (ps, none)
  | ps, (n, v) :: rest =>
      match applyPair dev ps n v with
      | .error e => (ps, some e)
      | .ok ps' => SetControls dev ps' rest

/-- The byte values of the replacement set `" .,/_+(){}[]=&%$:;'#*~"` in
`FixupName`. -/
def punctBytes : List Nat :=
  [32, 46, 44, 47, 95, 43, 40, 41, 123, 125, 91, 93, 61, 38, 37, 36,
   58, 59, 39, 35, 42, 126]

/-- ASCII `tolower`. -/
def lowerByte (b : Nat) : Nat :=
  if 65 ≤ b ∧ b ≤ 90 then b + 32 else b

/-- The per-character pass of `FixupName` (lines 801-811): bytes that are
non-negative as a signed `char` (≤ 127) are lower-cased, and strictly
positive bytes in the replacement set become a hyphen (45). -/
def fixChar (b : Nat) : Nat :=
  let b := if b ≤ 127 then lowerByte b else b
  if 1 ≤ b ∧ b ≤ 127 ∧ b ∈ punctBytes then 45 else b

/-- The second pass of `FixupName` (lines 817-827): scan for hyphens,
deleting one of each adjacent pair in place (rescanning from the same
spot), and truncating at a hyphen that ends the string. -/
def squeezeHyphens : List Nat → List Nat
  | [] => []
  | [c] => if c = 45 then [] else [c]
  | c :: d :: rest =>
      if c = 45 then
        if d = 45 then squeezeHyphens (d :: rest)
        else 45 :: squeezeHyphens (d :: rest)
      else c :: squeezeHyphens (d :: rest)

/-- `FixupName` on a NUL-terminated byte string viewed as the list of its
bytes. -/
def FixupName (l : List Nat) : List Nat :=
  squeezeHyphens (l.map fixChar)

/-- `true` when the list never holds two adjacent hyphens. -/
def noDoubleHyphen : List Nat → Bool
  | [] => true
  | [_] => true
  | a :: b :: rest => if a = 45 ∧ b = 45 then false else noDoubleHyphen (b :: rest)

/-- An RGB pixel as `GetImage`/`ConvertToYUV` address it through the
photo block channel offsets; components are byte values 0-255. -/
structure Px where
  r : Int
  g : Int
  b : Int
  deriving Repr, DecidableEq

/-- The `sat` saturation clamp (line 1470). -/
def sat (i : Int) : Int :=
  if i ≥ 255 then 255 else if i < 0 then 0 else i

/-- C arithmetic right shift by `n` on `int` values (gcc/clang semantics:
floor division by `2^n`, also for negative values). -/
def asr (x : Int) (n : Nat) : Int :=
  Int.fdiv x (2 ^ n)

/-- `ConvertToYUV` (lines 1519-1560): two RGB pixels per iteration become
the 4 bytes `Y1 C1 Y2 C2` of packed 4:2:2; the chroma planes use the
summed (not averaged) pair, and `isvu` selects the `YVYU` byte order
(`C1` = V, `C2` = U) over `YUYV`. -/
def ConvertToYUV (isvu : Bool) : List Px → List Int
  | p1 :: p2 :: rest =>
      let y1 := sat (asr (4224 * p1.r + 8256 * p1.g + 1600 * p1.b) 14 + 16)
      let y2 := sat (asr (4224 * p2.r + 8256 * p2.g + 1600 * p2.b) 14 + 16)
      let rs := p1.r + p2.r
      let gs := p1.g + p2.g
      let bs := p1.b + p2.b
      let u := sat (asr (-2432 * rs - 4736 * gs + 7168 * bs) 15 + 128)
      let v := sat (asr (7168 * rs - 6016 * gs - 1152 * bs) 15 + 128)
      if isvu then y1 :: v :: y2 :: u :: ConvertToYUV isvu rest
      else y1 :: u :: y2 :: v :: ConvertToYUV isvu rest
  | _ => []

/-- `ConvertFromYUV` (lines 1475-1517): each 4 input bytes `Y1 C1 Y2 C2`
yield two RGB pixels sharing the chroma contribution; `isvu` again
selects which chroma byte is V. -/
def ConvertFromYUV (isvu : Bool) : List Int → List Px
  | y1 :: c1 :: y2 :: c2 :: rest =>
      let u := if isvu then c2 else c1
      let v := if isvu then c1 else c2
      let r := asr (22987 * (v - 128)) 14
      let g := asr (-5636 * (u - 128) - 11698 * (v - 128)) 14
      let b := asr (29049 * (u - 128)) 14
      ⟨sat (y1 + r), sat (y1 + g), sat (y1 + b)⟩ ::
        ⟨sat (y2 + r), sat (y2 + g), sat (y2 + b)⟩ :: ConvertFromYUV isvu rest
  | _ => []

/-- RGB → packed YUV → RGB round trip with matching byte order. -/
def roundtripYUV (isvu : Bool) (pixels : List Px) : List Px :=
  ConvertFromYUV isvu (ConvertToYUV isvu pixels)

/-- A grey pixel. -/
def greyPx (v : Int) : Px := ⟨v, v, v⟩

/-- An image whose horizontally adjacent pixel pairs are equal grey
values: each listed byte value yields two identical grey pixels. -/
def greyPairs (vs : List (Fin 256)) : List Px :=
  vs.flatMap fun v => [greyPx v.1, greyPx v.1]

/-- The luma value the round trip reproduces for a grey input `v`:
`ConvertToYUV` stores the studio-swing `16 + (14080*v >> 14)` and
`ConvertFromYUV` hands it back unscaled. -/
def yGrey (v : Int) : Int :=
  asr (14080 * v) 14 + 16

/-- One public operation on an open session, with the oracle data its
code path consumes: `start`/`stop`, one ready-event callback, one
`image`/`greyimage` retrieval, and the session-field setters
(`orientation`, `mirror`, `greyshift`, `parameters`). -/
inductive Op
  | start (k : Kern)
  | stop
  | ready (dq : DqResult) (requeueOk : Bool)
  | image (hasPhoto : Bool) (renderOk : Bool)
  | orient (degrees : Int)
  | mirrorSet (x y : Bool)
  | greyShift (n : Int)
  | params (dev : Dev) (ctrls : List (String × VCTRL)) (vals : List (Nat × Int))
      (pairs : List (TObj × TObj))

/-- The session-state effect of one operation. -/
def stepOp (c : V4L2C) : Op → V4L2C
  | .start k => (StartCapture k c).state
  | .stop => (StopCapture c).1
  | .ready dq rq => (BufferReady c dq rq).1
  | .image hp ok => (GetImage c hp ok).1
  | .orient d => orientationSet c d
  | .mirrorSet x y => { c with mirror := (if x then 1 else 0) + (if y then 2 else 0) }
  | .greyShift n => { c with greyshift := n }
  | .params dev ctrls vals pairs => (SetControls dev ⟨c, ctrls, vals⟩ pairs).1.sess

/-- Run a sequence of operations from a given session state. -/
def runOps (c : V4L2C) (ops : List Op) : V4L2C :=
  ops.foldl stepOp c

/-- The counter invariant: frames consumed never exceed frames captured,
and an unconsumed ready buffer witnesses a strict gap. -/
def CounterInv (c : V4L2C) : Prop :=
  c.counter1 ≤ c.counter0 ∧
    (0 ≤ c.bufrdy → c.bufdone = false → c.counter1 < c.counter0)

/-- A capturing session used to instantiate theorems about the
ready-event handler. -/
def capturingState : V4L2C :=
  { openState 640 480 30 with running := 1 }

/-- C1: in `BufferReady`, a would-block dequeue with the stall marker
clear sets the marker, sleeps and returns without evaluating the
callback; a second consecutive would-block dequeue (marker already set)
performs the stop-and-error cleanup and leaves the session in the error
state (`running = -1`); a successful dequeue clears the marker, so a
single would-block wake-up followed by a successful dequeue (whose
requeue succeeds) never reaches the error state. -/
theorem bufferReady_stall_protocol (c : V4L2C) (rq rq1 rq2 : Bool) (i : Nat) (q : Int)
    (_hrun : 0 < c.running) (hst : c.stalled = false) :
    BufferReady c .again rq = ({ c with stalled := true }, .quiet) ∧
    BufferReady { c with stalled := true } .again rq1 =
      (captureError { c with stalled := true }, .error) ∧
    (captureError { c with stalled := true }).running = -1 ∧
    (BufferReady c (.ok i q) rq2).1.stalled = false ∧
    (BufferReady (BufferReady c .again rq).1 (.ok i q) true).1.running = c.running := by
  have hagain : BufferReady c .again rq = ({ c with stalled := true }, .quiet) := by
    simp [BufferReady, hst]
  refine ⟨hagain, ?_, ?_, ?_, ?_⟩
  · simp [BufferReady]
  · rfl
  · unfold BufferReady
    dsimp only
    split
    · split <;> simp [captureError, StopCapture]
    · rfl
  · rw [hagain]
    unfold BufferReady
    dsimp only
    split <;> rfl

/-- Witness for `bufferReady_stall_protocol` at a concrete capturing
session. -/
theorem bufferReady_stall_protocol_witness :
    BufferReady capturingState .again true =
      ({ capturingState with stalled := true }, .quiet) ∧
    (BufferReady (BufferReady capturingState .again true).1 (.ok 0 7) true).1.running =
      capturingState.running :=
  ⟨(bufferReady_stall_protocol capturingState true true true 0 7
      (by decide) (by decide)).1,
   (bufferReady_stall_protocol capturingState true true true 0 7
      (by decide) (by decide)).2.2.2.2⟩

/-- C3: `stop` on a stopped session is a no-op success, a second `stop`
right after a first one changes nothing, `stop` never resets the two
frame counters, and stopping an active capture resets exactly the
running flag, stall marker, ready-buffer index and buffer-done marker. -/
theorem stopCapture_idempotent (c : V4L2C) :
    (StopCapture c).2 = .ok ∧
    (c.running = 0 → StopCapture c = (c, .ok)) ∧
    (StopCapture c).1.counter0 = c.counter0 ∧
    (StopCapture c).1.counter1 = c.counter1 ∧
    (0 < c.running →
      (StopCapture c).1 =
        { c with running := 0, stalled := false, bufrdy := -1, bufdone := false }) ∧
    StopCapture (StopCapture c).1 = ((StopCapture c).1, .ok) := by
  unfold StopCapture
  split
  · rename_i h
    refine ⟨rfl, ?_, rfl, rfl, fun _ => rfl, ?_⟩
    · intro h0
      omega
    · simp
  · rename_i h
    exact ⟨rfl, fun _ => rfl, rfl, rfl, fun h' => absurd h' h, by simp_all⟩

/-- Witness for `stopCapture_idempotent` at a concrete stopped session. -/
theorem stopCapture_idempotent_witness :
    StopCapture (openState 640 480 30) = (openState 640 480 30, .ok) :=
  (stopCapture_idempotent (openState 640 480 30)).2.1 (by decide)

/-- C10: `GetImage` with no ready buffer (`bufrdy < 0`): with a photo
sink it succeeds returning the integer 0, without one it fails with
"no image available"; either way the session — counters included — is
returned unchanged. -/
theorem getImage_no_ready_frame (c : V4L2C) (ok1 ok2 : Bool) (h : c.bufrdy < 0) :
    GetImage c true ok1 = (c, .intRes 0) ∧
    GetImage c false ok2 = (c, .errMsg "no image available") := by
  constructor <;> simp [GetImage, h]

/-- Witness for `getImage_no_ready_frame` right after open. -/
theorem getImage_no_ready_frame_witness :
    GetImage (openState 640 480 30) true true = (openState 640 480 30, .intRes 0) ∧
    GetImage (openState 640 480 30) false true =
      (openState 640 480 30, .errMsg "no image available") :=
  getImage_no_ready_frame (openState 640 480 30) true true (by decide)

/-- Auxiliary: C truncating remainder of a negative value is nonpositive. -/
theorem tmod_nonpos_of_neg (a : Int) (h : a < 0) : a.tmod 360 ≤ 0 := by
  cases a with
  | ofNat m =>
      exfalso
      have : (0 : Int) ≤ Int.ofNat m := Int.ofNat_nonneg m
      omega
  | negSucc m =>
      unfold Int.tmod
      simp
      exact Int.emod_nonneg _ (by norm_num)

/-- C8 (counterexample): the claim says a negative degree input snaps
like its equivalent angle in `[0,360)`; but `-90` (equivalent to `270`)
snaps to `0`, because the C `%` leaves the remainder negative and every
negative remainder falls into the first sector branch. -/
theorem orientation_negative_counterexample :
    snapRotate (-90) = 0 ∧
    snapRotate 270 = 270 ∧
    ((-90 : Int) + 360 = 270) ∧
    (orientationSet (openState 640 480 30) (-90)).rotate = 0 := by
  refine ⟨by decide, by decide, by decide, ?_⟩
  show snapRotate (-90) = 0
  decide

/-- C8 (amended): the stored rotation is always one of 0/90/180/270;
for nonnegative inputs it is the 45-degree-sector snap of the input
reduced modulo 360; for negative inputs the truncated C remainder is
nonpositive, so the first branch always fires and the stored rotation
is 0. -/
theorem orientation_snap (c : V4L2C) (d : Int) :
    ((orientationSet c d).rotate = 0 ∨ (orientationSet c d).rotate = 90 ∨
      (orientationSet c d).rotate = 180 ∨ (orientationSet c d).rotate = 270) ∧
    (0 ≤ d → (orientationSet c d).rotate =
      (if d % 360 < 45 then 0
       else if d % 360 < 135 then 90
       else if d % 360 < 225 then 180
       else if d % 360 < 315 then 270
       else 0)) ∧
    (d < 0 → (orientationSet c d).rotate = 0) ∧
    (orientationSet c d) = { c with rotate := snapRotate d } := by
  refine ⟨?_, ?_, ?_, rfl⟩
  · unfold orientationSet snapRotate
    dsimp only
    split
    · exact Or.inl rfl
    · split
      · exact Or.inr (Or.inl rfl)
      · split
        · exact Or.inr (Or.inr (Or.inl rfl))
        · split
          · exact Or.inr (Or.inr (Or.inr rfl))
          · exact Or.inl rfl
  · intro hd
    unfold orientationSet snapRotate
    dsimp only
    rw [Int.tmod_eq_emod hd (by norm_num)]
  · intro hd
    have hm : Int.tmod d 360 ≤ 0 := tmod_nonpos_of_neg d hd
    unfold orientationSet snapRotate
    dsimp only
    rw [if_pos (by omega)]

/-- Full case characterization of the buffer-count negotiation. -/
theorem negotiateBuffers_eq (f : Nat → Option Nat) :
    negotiateBuffers f =
      match f 2 with
      | none => .ioctlErr
      | some c2 =>
          if c2 = 0 ∨ c2 > 16 then
            match f 4 with
            | none => .ioctlErr
            | some c4 =>
                if c4 = 0 ∨ c4 > 16 then
                  match f 8 with
                  | none => .ioctlErr
                  | some c8 => if c8 = 0 ∨ c8 > 16 then .noBufs else .got c8
                else .got c4
          else .got c2 := by
  unfold negotiateBuffers
  cases h2 : f 2 with
  | none => simp [reqBufsGo, h2]
  | some c2 =>
      by_cases hc2 : c2 = 0 ∨ c2 > 16
      · cases h4 : f 4 with
        | none => simp [reqBufsGo, h2, h4, hc2]
        | some c4 =>
            by_cases hc4 : c4 = 0 ∨ c4 > 16
            · cases h8 : f 8 with
              | none => simp [reqBufsGo, h2, h4, h8, hc2, hc4]
              | some c8 =>
                  by_cases hc8 : c8 = 0 ∨ c8 > 16
                  · simp [reqBufsGo, h2, h4, h8, hc2, hc4, hc8]
                  · simp [reqBufsGo, h2, h4, h8, hc2, hc4, hc8]
            · simp [reqBufsGo, h2, h4, hc2, hc4]
      · simp [reqBufsGo, h2, hc2]

/-- C2 (amended): on a stopped session whose format negotiation
succeeded, the pool is negotiated by requesting counts 2, 4, 8 — the
doubling loop's guard `i < 16` stops before a request for 16 is ever
issued — accepting the first kernel-returned count in `[1,16]` as the
pool size; if none of the three requests yields an in-range count (or a
request ioctl fails) `start` returns an error and the session enters
the error state. -/
theorem startCapture_buffer_negotiation (k : Kern) (c : V4L2C)
    (hstop : c.running = 0) (pf fw fh : Int)
    (hfmt : formatPhase k c = .ok (pf, fw, fh)) :
    (∀ n, negotiateBuffers k.reqbufs = .got n →
      (1 ≤ n ∧ n ≤ 16) ∧
      (k.reqbufs 2 = some n ∨ k.reqbufs 4 = some n ∨ k.reqbufs 8 = some n)) ∧
    (∀ n, k.reqbufs 2 = some n → 1 ≤ n → n ≤ 16 →
      negotiateBuffers k.reqbufs = .got n) ∧
    (∀ m n, k.reqbufs 2 = some m → (m = 0 ∨ 16 < m) → k.reqbufs 4 = some n →
      1 ≤ n → n ≤ 16 → negotiateBuffers k.reqbufs = .got n) ∧
    (∀ m m' n, k.reqbufs 2 = some m → (m = 0 ∨ 16 < m) → k.reqbufs 4 = some m' →
      (m' = 0 ∨ 16 < m') → k.reqbufs 8 = some n → 1 ≤ n → n ≤ 16 →
      negotiateBuffers k.reqbufs = .got n) ∧
    (∀ m m' m'', k.reqbufs 2 = some m → (m = 0 ∨ 16 < m) → k.reqbufs 4 = some m' →
      (m' = 0 ∨ 16 < m') → k.reqbufs 8 = some m'' → (m'' = 0 ∨ 16 < m'') →
      negotiateBuffers k.reqbufs = .noBufs) ∧
    (negotiateBuffers k.reqbufs = .ioctlErr ∨ negotiateBuffers k.reqbufs = .noBufs →
      (StartCapture k c).ret = .error ∧ (StartCapture k c).state.running = -1) ∧
    (∀ n, negotiateBuffers k.reqbufs = .got n →
      ((List.range n).all fun i => k.querybufOk i && k.mmapOk i) = true →
      (List.range n).all k.qbufOk = true → k.streamonOk = true →
      (StartCapture k c).ret = .ok ∧ (StartCapture k c).state.nvbufs = n ∧
        (StartCapture k c).state.running = 1) := by
  have hnotrun : ¬ (c.running > 0) := by omega
  refine ⟨?_, ?_, ?_, ?_, ?_, ?_, ?_⟩
  · intro n h
    rw [negotiateBuffers_eq] at h
    split at h
    · exact absurd h (by simp)
    · rename_i c2 h2
      split at h
      · split at h
        · exact absurd h (by simp)
        · rename_i c4 h4
          split at h
          · split at h
            · exact absurd h (by simp)
            · rename_i c8 h8
              split at h
              · exact absurd h (by simp)
              · rename_i hc8
                injection h with h
                subst h
                exact ⟨by omega, Or.inr (Or.inr h8)⟩
          · injection h with h
            subst h
            rename_i hc4
            exact ⟨by omega, Or.inr (Or.inl h4)⟩
      · injection h with h
        subst h
        rename_i hc2
        exact ⟨by omega, Or.inl h2⟩
  · intro n h2 h1 h16
    simp only [negotiateBuffers_eq, h2]
    rw [if_neg (by omega)]
  · intro m n h2 hm h4 h1 h16
    simp only [negotiateBuffers_eq, h2, h4]
    rw [if_pos (by omega), if_neg (by omega)]
  · intro m m' n h2 hm h4 hm' h8 h1 h16
    simp only [negotiateBuffers_eq, h2, h4, h8]
    rw [if_pos (by omega), if_pos (by omega), if_neg (by omega)]
  · intro m m' m'' h2 hm h4 hm' h8 hm''
    simp only [negotiateBuffers_eq, h2, h4, h8]
    rw [if_pos (by omega), if_pos (by omega), if_pos (by omega)]
  · intro hbad
    cases hbad with
    | inl h =>
        constructor <;> simp [StartCapture, if_neg hnotrun, hfmt, h]
    | inr h =>
        constructor <;> simp [StartCapture, if_neg hnotrun, hfmt, h]
  · intro n hn hq hb hs
    refine ⟨?_, ?_, ?_⟩ <;> simp [StartCapture, if_neg hnotrun, hfmt, hn, hq, hb, hs]

/-- A kernel oracle that grants every request. -/
def okKern : Kern :=
  { sFmt := fun f w h => some (f, w, h), gParmCap := none, sParmOk := true,
    gParmReadback := none, reqbufs := fun n => some n,
    querybufOk := fun _ => true, mmapOk := fun _ => true, qbufOk := fun _ => true,
    streamonOk := true }

/-- Witness for `startCapture_buffer_negotiation`: a cooperative kernel
grants the very first request of 2 and the capture starts with a pool
of 2 buffers. -/
theorem startCapture_buffer_negotiation_witness :
    negotiateBuffers okKern.reqbufs = .got 2 ∧
    (StartCapture okKern (openState 640 480 30)).ret = .ok ∧
    (StartCapture okKern (openState 640 480 30)).state.nvbufs = 2 := by
  have h := startCapture_buffer_negotiation okKern (openState 640 480 30) (by decide)
      pixRGB24 640 480 (by decide)
  have hg : negotiateBuffers okKern.reqbufs = .got 2 :=
    h.2.1 2 rfl (by decide) (by decide)
  have h7 := h.2.2.2.2.2.2 2 hg (by decide) (by decide) rfl
  exact ⟨hg, h7.1, h7.2.1⟩

/-- A kernel that only grants a buffer request of exactly 16. -/
def stubbornReq : Nat → Option Nat := fun n => if n = 16 then some 16 else some 0

def stubbornKern : Kern :=
  { sFmt := fun f w h => some (f, w, h), gParmCap := none, sParmOk := true,
    gParmReadback := none, reqbufs := stubbornReq,
    querybufOk := fun _ => true, mmapOk := fun _ => true, qbufOk := fun _ => true,
    streamonOk := true }

/-- C2 (counterexample): the claim has the doubling reach the cap of 16,
so a kernel satisfied exactly at a request of 16 should yield a pool of
16; the code's loop guard `i < 16` never issues that request, and
`start` fails into the error state instead. -/
theorem bufferNegotiation_cap_counterexample :
    stubbornReq 16 = some 16 ∧
    claimNegotiateBuffers stubbornReq = .got 16 ∧
    negotiateBuffers stubbornReq = .noBufs ∧
    (StartCapture stubbornKern (openState 640 480 30)).ret = .error ∧
    (StartCapture stubbornKern (openState 640 480 30)).state.running = -1 := by
  decide

/-- The synthetic "frame-rate" control descriptor (`v4l2c->frate`), as
`InitControls` builds it: integer kind, range 1..200, flags clear. -/
def frateCtrl : VCTRL :=
  { cid := 1, ctype := .integer, minimum := 1, maximum := 200, special := .frate }

/-- A device on which every control write succeeds. -/
def devAll : Dev := { extSet := fun _ _ => .ok, oldSet := fun _ _ => true }

/-- The name object "frame-rate" (its string form never parses as an
integer). -/
def frNameObj : TObj := { str := "frame-rate" }

/-- An integer-valued `Tcl_Obj`. -/
def intObj (n : Int) : TObj :=
  { str := toString n, asInt := some n, asWide := some n }

/-- C4 (amended): a `parameters` write to the synthetic "frame-rate"
control with an integer value updates only the session's stored target
fps, and only when the value lies strictly inside (0,200); an
out-of-range value is ignored rather than clamped, leaving the stored
fps unchanged (so it stays inside 1..200 exactly when it already was);
no device ioctl is consulted and no other state changes. -/
theorem frameRate_write (dev : Dev) (ps : PState) (no vo : TObj) (fr : VCTRL) (n : Int)
    (hname : no.str = "frame-rate")
    (hfind : findCtrl ps "frame-rate" = some fr)
    (hsp : fr.special = .frate) (hro : fr.readOnly = false) (hin : fr.inactive = false)
    (hint : vo.asInt = some n) :
    applyPair dev ps no vo =
      .ok (if n > 0 ∧ n < 200 then { ps with sess := { ps.sess with fps := n } } else ps) ∧
    (∀ dev', applyPair dev' ps no vo = applyPair dev ps no vo) ∧
    (∀ ps', applyPair dev ps no vo = .ok ps' →
      ps'.ctrls = ps.ctrls ∧ ps'.vals = ps.vals ∧
      ps'.sess = { ps.sess with fps := ps'.sess.fps } ∧
      (1 ≤ ps.sess.fps → ps.sess.fps ≤ 200 → 1 ≤ ps'.sess.fps ∧ ps'.sess.fps ≤ 200)) := by
  have key : ∀ d : Dev, applyPair d ps no vo =
      .ok (if n > 0 ∧ n < 200 then { ps with sess := { ps.sess with fps := n } }
           else ps) := by
    intro d
    unfold applyPair
    rw [hname, hfind]
    simp [hro, hin, hsp, hint]
    split <;> rfl
  refine ⟨key dev, fun dev' => (key dev').trans (key dev).symm, ?_⟩
  intro ps' h
  rw [key dev] at h
  injection h with h
  by_cases hr : n > 0 ∧ n < 200
  · rw [if_pos hr] at h
    subst h
    exact ⟨rfl, rfl, rfl, fun _ _ => by constructor <;> dsimp <;> omega⟩
  · rw [if_neg hr] at h
    subst h
    exact ⟨rfl, rfl, rfl, fun h1 h2 => ⟨h1, h2⟩⟩

/-- Witness for `frameRate_write`: an in-range write of 100 is stored. -/
theorem frameRate_write_witness :
    applyPair devAll { sess := openState 640 480 30,
                       ctrls := [("frame-rate", frateCtrl)], vals := [] }
        frNameObj (intObj 100) =
      .ok (if (100 : Int) > 0 ∧ (100 : Int) < 200 then
             { sess := { openState 640 480 30 with fps := 100 },
               ctrls := [("frame-rate", frateCtrl)], vals := [] }
           else { sess := openState 640 480 30,
                  ctrls := [("frame-rate", frateCtrl)], vals := [] }) :=
  (frameRate_write devAll
      { sess := openState 640 480 30, ctrls := [("frame-rate", frateCtrl)], vals := [] }
      frNameObj (intObj 100) frateCtrl 100 rfl (by decide) rfl rfl rfl rfl).1

/-- A kernel whose frame-interval readback reports 250 fps. -/
def fastKern : Kern :=
  { sFmt := fun f w h => some (f, w, h), gParmCap := some true, sParmOk := true,
    gParmReadback := some (100, 25000), reqbufs := fun n => some n,
    querybufOk := fun _ => true, mmapOk := fun _ => true, qbufOk := fun _ => true,
    streamonOk := true }

/-- C4 (counterexample): the claim has every frame-rate write leave the
stored fps inside 1..200; but `StartCapture` stores the raw readback
fps (clamped only to `>= 1`, here 250), and a subsequent out-of-range
frame-rate write of 300 is ignored rather than clamped, leaving the
stored fps at 250 — outside the declared 1..200 range. -/
theorem frameRate_claim_counterexample :
    (StartCapture fastKern (openState 640 480 15)).state.fps = 250 ∧
    SetControls devAll
        { sess := (StartCapture fastKern (openState 640 480 15)).state,
          ctrls := [("frame-rate", frateCtrl)], vals := [] }
        [(frNameObj, intObj 300)] =
      ({ sess := (StartCapture fastKern (openState 640 480 15)).state,
         ctrls := [("frame-rate", frateCtrl)], vals := [] }, none) ∧
    ¬ (StartCapture fastKern (openState 640 480 15)).state.fps ≤ 200 := by
  decide

/-- Witness for `orientation_snap` at concrete inputs. -/
theorem orientation_snap_witness :
    (orientationSet (openState 640 480 30) 100).rotate =
      (if (100 : Int) % 360 < 45 then 0
       else if (100 : Int) % 360 < 135 then 90
       else if (100 : Int) % 360 < 225 then 180
       else if (100 : Int) % 360 < 315 then 270
       else 0) ∧
    (orientationSet (openState 640 480 30) (-90)).rotate = 0 :=
  ⟨(orientation_snap (openState 640 480 30) 100).2.1 (by decide),
   (orientation_snap (openState 640 480 30) (-90)).2.2.1 (by decide)⟩

/-- A byte the normalized output may contain: not an ASCII capital and
not a member of the replacement set. -/
def byteOk (b : Nat) : Bool :=
  !(decide (65 ≤ b) && decide (b ≤ 90)) && !(punctBytes.contains b)

/-- `squeezeHyphens` keeps the head byte when it is not a hyphen. -/
theorem squeezeHyphens_headNe (d : Nat) (hd : d ≠ 45) (rest : List Nat) :
    ∃ t, squeezeHyphens (d :: rest) = d :: t := by
  cases rest with
  | nil => exact ⟨[], by simp [squeezeHyphens, hd]⟩
  | cons e r => exact ⟨squeezeHyphens (e :: r), by simp [squeezeHyphens, hd]⟩

/-- A list starting with a hyphen squeezes to nothing or to a list
starting with the hyphen. -/
theorem squeezeHyphens_head45 : ∀ rest : List Nat,
    squeezeHyphens (45 :: rest) = [] ∨
      ∃ t, squeezeHyphens (45 :: rest) = 45 :: t
  | [] => Or.inl (by simp [squeezeHyphens])
  | e :: r => by
      by_cases he : e = 45
      · subst he
        have ih := squeezeHyphens_head45 r
        simpa [squeezeHyphens] using ih
      · exact Or.inr ⟨squeezeHyphens (e :: r), by simp [squeezeHyphens, he]⟩

/-- The squeezed string has no two adjacent hyphens. -/
theorem squeeze_noDouble : ∀ l : List Nat, noDoubleHyphen (squeezeHyphens l) = true
  | [] => rfl
  | [c] => by by_cases h : c = 45 <;> simp [squeezeHyphens, noDoubleHyphen, h]
  | c :: d :: rest => by
      have ih := squeeze_noDouble (d :: rest)
      by_cases hc : c = 45
      · subst hc
        by_cases hd : d = 45
        · subst hd
          simpa [squeezeHyphens] using ih
        · rw [show squeezeHyphens (45 :: d :: rest) = 45 :: squeezeHyphens (d :: rest)
                from by simp [squeezeHyphens, hd]]
          obtain ⟨t, ht⟩ := squeezeHyphens_headNe d hd rest
          rw [ht]
          rw [ht] at ih
          simpa [noDoubleHyphen, hd] using ih
      · rw [show squeezeHyphens (c :: d :: rest) = c :: squeezeHyphens (d :: rest)
              from by simp [squeezeHyphens, hc]]
        cases hX : squeezeHyphens (d :: rest) with
        | nil => simp [noDoubleHyphen]
        | cons y t =>
            rw [hX] at ih
            have hcy : ¬ (c = 45 ∧ y = 45) := fun h => hc h.1
            simpa [noDoubleHyphen, hcy] using ih

/-- The squeezed string never ends in a hyphen. -/
theorem squeeze_last : ∀ l : List Nat, (squeezeHyphens l).getLast? ≠ some 45
  | [] => by simp [squeezeHyphens]
  | [c] => by
      by_cases h : c = 45 <;> simp [squeezeHyphens, h]
  | c :: d :: rest => by
      have ih := squeeze_last (d :: rest)
      by_cases hc : c = 45
      · subst hc
        by_cases hd : d = 45
        · subst hd
          simpa [squeezeHyphens] using ih
        · rw [show squeezeHyphens (45 :: d :: rest) = 45 :: squeezeHyphens (d :: rest)
                from by simp [squeezeHyphens, hd]]
          obtain ⟨t, ht⟩ := squeezeHyphens_headNe d hd rest
          rw [ht]
          rw [ht] at ih
          rwa [List.getLast?_cons_cons]
      · rw [show squeezeHyphens (c :: d :: rest) = c :: squeezeHyphens (d :: rest)
              from by simp [squeezeHyphens, hc]]
        cases hX : squeezeHyphens (d :: rest) with
        | nil => simp [hc]
        | cons y t =>
            rw [hX] at ih
            rwa [List.getLast?_cons_cons]

/-- Squeezing only drops bytes, it never introduces one. -/
theorem squeeze_subset : ∀ l : List Nat, ∀ b ∈ squeezeHyphens l, b ∈ l
  | [] => by simp [squeezeHyphens]
  | [c] => by
      by_cases h : c = 45 <;> simp [squeezeHyphens, h]
  | c :: d :: rest => by
      intro b hb
      have ih := squeeze_subset (d :: rest)
      by_cases hc : c = 45
      · subst hc
        by_cases hd : d = 45
        · subst hd
          rw [show squeezeHyphens (45 :: 45 :: rest) = squeezeHyphens (45 :: rest)
                from by simp [squeezeHyphens]] at hb
          exact List.mem_cons_of_mem _ (ih b hb)
        · rw [show squeezeHyphens (45 :: d :: rest) = 45 :: squeezeHyphens (d :: rest)
                from by simp [squeezeHyphens, hd]] at hb
          rcases List.mem_cons.mp hb with h45 | hmem
          · exact h45 ▸ List.mem_cons_self _ _
          · exact List.mem_cons_of_mem _ (ih b hmem)
      · rw [show squeezeHyphens (c :: d :: rest) = c :: squeezeHyphens (d :: rest)
              from by simp [squeezeHyphens, hc]] at hb
        rcases List.mem_cons.mp hb with hcc | hmem
        · exact hcc ▸ List.mem_cons_self _ _
        · exact List.mem_cons_of_mem _ (ih b hmem)

/-- Every byte the per-character pass emits is admissible. -/
theorem fixChar_ok (b : Nat) : byteOk (fixChar b) = true := by
  by_cases h : b ≤ 127
  · have hb : b < 128 := by omega
    have hdec : ∀ x : Fin 128, byteOk (fixChar x.val) = true := by decide
    exact hdec ⟨b, hb⟩
  · have h1 : fixChar b = b := by
      have hp : ¬ (1 ≤ b ∧ b ≤ 127 ∧ b ∈ punctBytes) := fun hx => h hx.2.1
      simp [fixChar, h, hp]
    rw [h1]
    have h90 : ¬ b ≤ 90 := by omega
    have hnp : ¬ b ∈ punctBytes := by
      simp only [punctBytes, List.mem_cons, List.not_mem_nil, or_false]
      omega
    simp [byteOk, h90, List.contains, hnp]

/-- C7 (amended): for every byte-string input, `FixupName` produces a
name with no ASCII capitals, none of the bytes of the fixed replacement
set `" .,/_+(){}[]=&%$:;'#*~"` (each of which is turned into a hyphen),
no two adjacent hyphens, and no trailing hyphen.  A leading hyphen is
not stripped, and punctuation outside the fixed set is kept. -/
theorem fixupName_normal_form (l : List Nat) :
    noDoubleHyphen (FixupName l) = true ∧
    (FixupName l).getLast? ≠ some 45 ∧
    (FixupName l).all byteOk = true ∧
    punctBytes.all (fun b => fixChar b == 45) = true := by
  refine ⟨squeeze_noDouble _, squeeze_last _, ?_, by decide⟩
  rw [List.all_eq_true]
  intro x hx
  have hmem := squeeze_subset _ x hx
  rw [List.mem_map] at hmem
  obtain ⟨b, _, rfl⟩ := hmem
  exact fixChar_ok b

/-- C7 (counterexample): the claim says leading hyphens are stripped and
every punctuation byte is replaced; on the input `"␣!a"` (bytes
32, 33, 97) the output is `"-!a"`: it begins with a hyphen — the second
scan only collapses runs and strips a trailing hyphen — and the
punctuation byte `'!'` (33) survives because it is not in the fixed
replacement set. -/
theorem fixupName_claim_counterexample :
    FixupName [32, 33, 97] = [45, 33, 97] ∧
    (FixupName [32, 33, 97]).head? = some 45 ∧
    (33 : Nat) ≠ 45 := by decide

/-- `ConvertToYUV` processes pixel pairs independently. -/
theorem toYUV_cons (isvu : Bool) (p1 p2 : Px) (l : List Px) :
    ConvertToYUV isvu (p1 :: p2 :: l) =
      ConvertToYUV isvu [p1, p2] ++ ConvertToYUV isvu l := by
  cases isvu <;> simp [ConvertToYUV]

/-- `ConvertFromYUV` processes 4-byte groups independently. -/
theorem fromYUV_cons (isvu : Bool) (a b c d : Int) (l : List Int) :
    ConvertFromYUV isvu (a :: b :: c :: d :: l) =
      ConvertFromYUV isvu [a, b, c, d] ++ ConvertFromYUV isvu l := by
  cases isvu <;> simp [ConvertFromYUV]

set_option maxRecDepth 4096 in
/-- For a pair of equal grey pixels the chroma planes come out exactly
128 (the BT.601 coefficients cancel on R=G=B), the stored luma is the
studio-swing `16 + (14080*v >> 14)`, and converting back reproduces that
luma on all three channels; the luma lies in `[16,235]`, within 20 of
the original grey value. -/
theorem greyPair_facts (isvu : Bool) (v : Fin 256) :
    ConvertToYUV isvu [greyPx v.1, greyPx v.1] =
      [yGrey v.1, 128, yGrey v.1, 128] ∧
    ConvertFromYUV isvu [yGrey v.1, 128, yGrey v.1, 128] =
      [greyPx (yGrey v.1), greyPx (yGrey v.1)] ∧
    ((yGrey v.1 - v.1).natAbs ≤ 20 ∧ 16 ≤ yGrey v.1 ∧ yGrey v.1 ≤ 235) := by
  revert isvu v
  decide

/-- C6 (amended): the RGB → packed YUV → RGB round trip on an image of
even width whose horizontally adjacent pixel pairs are equal grey
values (either byte ordering, same ordering both ways) yields, for a
grey value `v`, the value `16 + (14080*v >> 14)` on every channel of
both pixels: `ConvertToYUV` emits studio-swing luma while
`ConvertFromYUV` consumes luma unscaled, so the round-trip error is not
within ±2 but within ±20 (attained at the ends of the range), with all
values saturation-clamped into `[0,255]` — indeed inside `[16,235]`. -/
theorem yuv_grey_roundtrip (isvu : Bool) (vs : List (Fin 256)) :
    roundtripYUV isvu (greyPairs vs) =
      vs.flatMap (fun v => [greyPx (yGrey v.1), greyPx (yGrey v.1)]) ∧
    (∀ v : Fin 256, (yGrey v.1 - v.1).natAbs ≤ 20 ∧ 16 ≤ yGrey v.1 ∧ yGrey v.1 ≤ 235) := by
  constructor
  · induction vs with
    | nil => rfl
    | cons v vs ih =>
        have hfacts := greyPair_facts isvu v
        show ConvertFromYUV isvu (ConvertToYUV isvu (greyPairs (v :: vs))) = _
        have h1 : greyPairs (v :: vs) = greyPx v.1 :: greyPx v.1 :: greyPairs vs := by
          simp [greyPairs]
        rw [h1, toYUV_cons, hfacts.1]
        show ConvertFromYUV isvu
            (yGrey v.1 :: 128 :: yGrey v.1 :: 128 :: ConvertToYUV isvu (greyPairs vs)) = _
        rw [fromYUV_cons, hfacts.2.1]
        show _ ++ roundtripYUV isvu (greyPairs vs) = _
        rw [ih]
        simp
  · intro v
    exact (greyPair_facts isvu v).2.2

/-- C6 (counterexample): at full white the round trip returns 235 on
every channel, an error of 20 — far outside the claimed ±2 bound. -/
theorem yuv_roundtrip_bound_counterexample :
    roundtripYUV false (greyPairs [(255 : Fin 256)]) = [greyPx 235, greyPx 235] ∧
    roundtripYUV true (greyPairs [(255 : Fin 256)]) = [greyPx 235, greyPx 235] ∧
    ((235 : Int) - 255).natAbs > 2 := by decide


/-- The fields of a control that decide whether a `SetControls` pair is
skipped (everything except the mutable `useOld` and the id). -/
structure CtrlSig where
  readOnly : Bool
  inactive : Bool
  special : CtrlSpecial
  ctype : CtrlType
  minimum : Int
  maximum : Int
  menu : List String
  deriving Repr, DecidableEq

def ctrlSig (c : VCTRL) : CtrlSig :=
  ⟨c.readOnly, c.inactive, c.special, c.ctype, c.minimum, c.maximum, c.menu⟩

/-- The per-pair skip conditions of claim C5: the name resolved to a
read-only or inactive control, the value failed the integer (resp.
wide-integer) conversion its control kind requires, or a menu label did
not match any choice. -/
def skipCond (c : VCTRL) (val : TObj) : Prop :=
  c.readOnly = true ∨ c.inactive = true ∨
  (c.special = .frate ∧ val.asInt = none) ∨
  (c.special = .plain ∧ (c.ctype = .integer ∨ c.ctype = .boolean) ∧ val.asInt = none) ∨
  (c.special = .plain ∧ c.ctype = .integer64 ∧ val.asWide = none) ∨
  (c.special = .plain ∧ c.ctype = .menu ∧ menuFind c val.str = none)

/-- A pair is silently skipped: unknown name, or one of `skipCond`. -/
def claimSkip (ps : PState) (name val : TObj) : Prop :=
  match findCtrl ps name.str with
  | none => True
  | some c => skipCond c val

/-- `menuFind` only reads the signature fields. -/
theorem menuFind_congr {c c' : VCTRL} (h : ctrlSig c = ctrlSig c') (s : String) :
    menuFind c s = menuFind c' s := by
  have h1 : c.minimum = c'.minimum := congrArg CtrlSig.minimum h
  have h2 : c.maximum = c'.maximum := congrArg CtrlSig.maximum h
  have h3 : c.menu = c'.menu := congrArg CtrlSig.menu h
  unfold menuFind
  rw [h1, h2, h3]

/-- `skipCond` only reads the signature fields. -/
theorem skipCond_congr {c c' : VCTRL} (h : ctrlSig c = ctrlSig c') (v : TObj) :
    skipCond c v ↔ skipCond c' v := by
  have h1 : c.readOnly = c'.readOnly := congrArg CtrlSig.readOnly h
  have h2 : c.inactive = c'.inactive := congrArg CtrlSig.inactive h
  have h3 : c.special = c'.special := congrArg CtrlSig.special h
  have h4 : c.ctype = c'.ctype := congrArg CtrlSig.ctype h
  have h5 : menuFind c v.str = menuFind c' v.str := menuFind_congr h v.str
  unfold skipCond
  rw [h1, h2, h3, h4, h5]

/-- A skipped pair leaves the state untouched and raises no error. -/
theorem applyPair_skip (dev : Dev) (ps : PState) (n v : TObj)
    (h : claimSkip ps n v) : applyPair dev ps n v = .ok ps := by
  unfold claimSkip at h
  unfold applyPair
  cases hf : findCtrl ps n.str with
  | none => rfl
  | some c =>
      rw [hf] at h
      rcases h with hro | hin | ⟨hsp, hint⟩ | ⟨hsp, hty, hint⟩ |
        ⟨hsp, hty, hwide⟩ | ⟨hsp, hty, hmenu⟩
      · simp [hro]
      · simp [hin]
      · by_cases hri : c.readOnly = true ∨ c.inactive = true
        · simp [hri]
        · simp [hri, hsp, hint]
      · by_cases hri : c.readOnly = true ∨ c.inactive = true
        · simp [hri]
        · rcases hty with hty | hty <;> simp [hri, hsp, hty, hint]
      · by_cases hri : c.readOnly = true ∨ c.inactive = true
        · simp [hri]
        · simp [hri, hsp, hty, hwide]
      · by_cases hri : c.readOnly = true ∨ c.inactive = true
        · simp [hri]
        · simp [hri, hsp, hty, hmenu]

/-- A successful control write leaves `ctrls` alone or only stamps a
`useOld` on the written name, and never touches the session record. -/
theorem writeCtrl_ctrls (dev : Dev) (ps : PState) (nm : String) (c : VCTRL) (v : Int)
    (ps' : PState) (h : writeCtrl dev ps nm c v = .ok ps') :
    (ps'.ctrls = ps.ctrls ∨ ps'.ctrls = setUseOld ps.ctrls nm 1) ∧ ps'.sess = ps.sess := by
  unfold writeCtrl at h
  split at h
  · split at h
    · injection h with h
      subst h
      exact ⟨Or.inl rfl, rfl⟩
    · simp at h
  · split at h
    · injection h with h
      subst h
      exact ⟨Or.inl rfl, rfl⟩
    · split at h
      · split at h
        · injection h with h
          subst h
          exact ⟨Or.inr rfl, rfl⟩
        · simp at h
      · simp at h
    · simp at h

/-- Any successful `applyPair` changes `ctrls` at most by a `useOld`
stamp. -/
theorem applyPair_ctrls (dev : Dev) (ps : PState) (n v : TObj) (ps' : PState)
    (h : applyPair dev ps n v = .ok ps') :
    ps'.ctrls = ps.ctrls ∨ ∃ nm, ps'.ctrls = setUseOld ps.ctrls nm 1 := by
  unfold applyPair at h
  split at h
  · injection h with h
    subst h
    exact Or.inl rfl
  · rename_i c hc
    split at h
    · injection h with h
      subst h
      exact Or.inl rfl
    · split at h
      · split at h
        · split at h
          · injection h with h
            subst h
            exact Or.inl rfl
          · injection h with h
            subst h
            exact Or.inl rfl
        · injection h with h
          subst h
          exact Or.inl rfl
      · split at h
        · injection h with h
          subst h
          exact Or.inl rfl
        · split at h
          · injection h with h
            subst h
            exact Or.inl rfl
          · injection h with h
            subst h
            exact Or.inl rfl
      · split at h
        · split at h
          · injection h with h
            subst h
            exact Or.inl rfl
          · rcases writeCtrl_ctrls dev ps n.str c _ ps' h with ⟨hc' | hc', _⟩
            · exact Or.inl hc'
            · exact Or.inr ⟨n.str, hc'⟩
        · split at h
          · injection h with h
            subst h
            exact Or.inl rfl
          · rcases writeCtrl_ctrls dev ps n.str c _ ps' h with ⟨hc' | hc', _⟩
            · exact Or.inl hc'
            · exact Or.inr ⟨n.str, hc'⟩
        · split at h
          · injection h with h
            subst h
            exact Or.inl rfl
          · rcases writeCtrl_ctrls dev ps n.str c _ ps' h with ⟨hc' | hc', _⟩
            · exact Or.inl hc'
            · exact Or.inr ⟨n.str, hc'⟩
        · rcases writeCtrl_ctrls dev ps n.str c _ ps' h with ⟨hc' | hc', _⟩
          · exact Or.inl hc'
          · exact Or.inr ⟨n.str, hc'⟩
        · split at h
          · injection h with h
            subst h
            exact Or.inl rfl
          · rcases writeCtrl_ctrls dev ps n.str c _ ps' h with ⟨hc' | hc', _⟩
            · exact Or.inl hc'
            · exact Or.inr ⟨n.str, hc'⟩

/-- Stamping `useOld` does not move entries or change signatures. -/
theorem find_setUseOld (l : List (String × VCTRL)) (nm : String) (u : Int) (s : String) :
    ((setUseOld l nm u).find? fun e => e.1 == s).map (fun e => ctrlSig e.2) =
      (l.find? fun e => e.1 == s).map (fun e => ctrlSig e.2) := by
  induction l with
  | nil => rfl
  | cons a t ih =>
      simp only [setUseOld, List.map_cons, List.find?]
      have hfst : (if (a.1 == nm) = true then (a.1, { a.2 with useOld := u }) else a).1
          = a.1 := by split <;> rfl
      rw [hfst]
      by_cases ha : (a.1 == s) = true
      · simp only [ha]
        split <;> rfl
      · simp only [Bool.not_eq_true] at ha
        simp only [ha]
        simpa [setUseOld] using ih

/-- Successful pair application preserves every control lookup up to the
skip-deciding signature. -/
theorem applyPair_ctrlSig (dev : Dev) (ps : PState) (n v : TObj) (ps' : PState)
    (h : applyPair dev ps n v = .ok ps') (s : String) :
    (findCtrl ps' s).map ctrlSig = (findCtrl ps s).map ctrlSig := by
  rcases applyPair_ctrls dev ps n v ps' h with hc | ⟨nm, hc⟩
  · unfold findCtrl
    rw [hc]
  · unfold findCtrl
    rw [hc]
    simp only [Option.map_map]
    exact find_setUseOld ps.ctrls nm 1 s

/-- `claimSkip` transfers along signature-preserving state changes. -/
theorem claimSkip_congr (ps ps' : PState) (n v : TObj)
    (h : (findCtrl ps' n.str).map ctrlSig = (findCtrl ps n.str).map ctrlSig)
    (hs : claimSkip ps n v) : claimSkip ps' n v := by
  unfold claimSkip at hs ⊢
  cases h1 : findCtrl ps n.str with
  | none =>
      cases h2 : findCtrl ps' n.str with
      | none => trivial
      | some c' =>
          rw [h1, h2] at h
          simp at h
  | some c =>
      cases h2 : findCtrl ps' n.str with
      | none =>
          rw [h1, h2] at h
          simp at h
      | some c' =>
          rw [h1, h2] at h
          have h' : ctrlSig c' = ctrlSig c := by simpa using h
          rw [h1] at hs
          exact (skipCond_congr h' v).mpr hs

/-- C5: pairs are applied in the given order, and a pair whose name is
unknown, whose control is read-only or inactive, whose value fails the
integer/wide-integer conversion, or whose menu label matches no choice,
is silently skipped: running the list with the pair present equals
running it with the pair removed — previously applied pairs stay
applied, no error is raised, and the control value is unchanged. -/
theorem setControls_silent_skip (dev : Dev) (ps : PState) (pre post : List (TObj × TObj))
    (n v : TObj) (hskip : claimSkip ps n v) :
    SetControls dev ps (pre ++ (n, v) :: post) = SetControls dev ps (pre ++ post) := by
  induction pre generalizing ps with
  | nil =>
      simp only [List.nil_append, SetControls, applyPair_skip dev ps n v hskip]
  | cons a t ih =>
      obtain ⟨m, w⟩ := a
      simp only [List.cons_append, SetControls]
      cases ha : applyPair dev ps m w with
      | error e => rfl
      | ok ps2 =>
          exact ih ps2 (claimSkip_congr ps ps2 n v (applyPair_ctrlSig dev ps m w ps2 ha n.str) hskip)

/-- Witness for `setControls_silent_skip`: one applied pair, then an
unknown name, then another applied pair. -/
theorem setControls_silent_skip_witness :
    SetControls devAll
        { sess := openState 640 480 30, ctrls := [("frame-rate", frateCtrl)], vals := [] }
        ([(frNameObj, intObj 50)] ++ ({ str := "nosuch" }, intObj 1) :: [(frNameObj, intObj 60)]) =
      SetControls devAll
        { sess := openState 640 480 30, ctrls := [("frame-rate", frateCtrl)], vals := [] }
        ([(frNameObj, intObj 50)] ++ [(frNameObj, intObj 60)]) :=
  setControls_silent_skip devAll
    { sess := openState 640 480 30, ctrls := [("frame-rate", frateCtrl)], vals := [] }
    [(frNameObj, intObj 50)] [(frNameObj, intObj 60)] { str := "nosuch" } (intObj 1)
    (by simp [claimSkip, findCtrl, frateCtrl])


/-- `captureError` keeps the counters and can only clear `bufrdy`. -/
theorem captureError_inv (c : V4L2C) (h : CounterInv c) : CounterInv (captureError c) := by
  unfold captureError StopCapture
  dsimp only
  split
  · exact ⟨h.1, fun hb _ => absurd hb (by norm_num)⟩
  · exact h

/-- `StopCapture` preserves the counter invariant. -/
theorem stopCapture_inv (c : V4L2C) (h : CounterInv c) : CounterInv (StopCapture c).1 := by
  unfold StopCapture
  split
  · exact ⟨h.1, fun hb _ => by simp at hb⟩
  · exact h

/-- `BufferReady` preserves the counter invariant: a successful dequeue
bumps the captured counter while clearing `bufdone`, keeping the strict
gap for the ready buffer it records. -/
theorem bufferReady_inv (c : V4L2C) (dq : DqResult) (rq : Bool) (h : CounterInv c) :
    CounterInv (BufferReady c dq rq).1 := by
  unfold BufferReady
  cases dq with
  | again =>
      dsimp only
      split
      · exact captureError_inv c h
      · exact h
  | fail => exact captureError_inv c h
  | ok i q =>
      dsimp only
      have h1 := h.1
      split
      · split
        · refine ⟨?_, fun _ _ => ?_⟩ <;> dsimp only <;> omega
        · apply captureError_inv
          refine ⟨?_, fun _ _ => ?_⟩ <;> dsimp only <;> omega
      · refine ⟨?_, fun _ _ => ?_⟩ <;> dsimp only <;> omega

/-- `GetImage` preserves the counter invariant: the consumed counter is
bumped only once per ready frame, under the strict gap. -/
theorem getImage_inv (c : V4L2C) (hp ok : Bool) (h : CounterInv c) :
    CounterInv (GetImage c hp ok).1 := by
  unfold GetImage
  split
  · split <;> exact h
  · rename_i hnb
    split
    · dsimp only
      split
      · exact h
      · rename_i hdone
        have hb : (0 : Int) ≤ c.bufrdy := by omega
        have hlt := h.2 hb (by simpa using hdone)
        refine ⟨?_, fun _ hcon => ?_⟩
        · dsimp only
          omega
        · dsimp only at hcon
          simp at hcon
    · exact h

/-- `StartCapture` preserves the counter invariant: every failure path
leaves the counters, ready index and done marker alone, and the success
path zeroes the counters with no ready buffer. -/
theorem startCapture_inv (k : Kern) (c : V4L2C) (h : CounterInv c) :
    CounterInv (StartCapture k c).state := by
  unfold StartCapture
  dsimp only
  split
  · exact h
  · split
    · exact h
    · exact h
    · split
      · exact h
      · exact h
      · split
        · split
          · split
            · exact ⟨Nat.le_refl 0, fun hb _ => by simp at hb⟩
            · exact h
          · exact h
        · exact h

/-- A successful `applyPair` never touches the counters, ready index,
done marker or running flag of the session. -/
theorem applyPair_counters (dev : Dev) (ps : PState) (n v : TObj) (ps2 : PState)
    (h : applyPair dev ps n v = .ok ps2) :
    ps2.sess.counter0 = ps.sess.counter0 ∧ ps2.sess.counter1 = ps.sess.counter1 ∧
    ps2.sess.bufrdy = ps.sess.bufrdy ∧ ps2.sess.bufdone = ps.sess.bufdone := by
  unfold applyPair at h
  split at h
  · injection h with h
    subst h
    exact ⟨rfl, rfl, rfl, rfl⟩
  · rename_i c hc
    split at h
    · injection h with h
      subst h
      exact ⟨rfl, rfl, rfl, rfl⟩
    · split at h
      · split at h
        · split at h
          · injection h with h
            subst h
            exact ⟨rfl, rfl, rfl, rfl⟩
          · injection h with h
            subst h
            exact ⟨rfl, rfl, rfl, rfl⟩
        · injection h with h
          subst h
          exact ⟨rfl, rfl, rfl, rfl⟩
      · split at h
        · injection h with h
          subst h
          exact ⟨rfl, rfl, rfl, rfl⟩
        · split at h
          · injection h with h
            subst h
            exact ⟨rfl, rfl, rfl, rfl⟩
          · injection h with h
            subst h
            exact ⟨rfl, rfl, rfl, rfl⟩
      · split at h
        · split at h
          · injection h with h
            subst h
            exact ⟨rfl, rfl, rfl, rfl⟩
          · have := (writeCtrl_ctrls dev ps n.str c _ ps2 h).2
            rw [this]
            exact ⟨rfl, rfl, rfl, rfl⟩
        · split at h
          · injection h with h
            subst h
            exact ⟨rfl, rfl, rfl, rfl⟩
          · have := (writeCtrl_ctrls dev ps n.str c _ ps2 h).2
            rw [this]
            exact ⟨rfl, rfl, rfl, rfl⟩
        · split at h
          · injection h with h
            subst h
            exact ⟨rfl, rfl, rfl, rfl⟩
          · have := (writeCtrl_ctrls dev ps n.str c _ ps2 h).2
            rw [this]
            exact ⟨rfl, rfl, rfl, rfl⟩
        · have := (writeCtrl_ctrls dev ps n.str c _ ps2 h).2
          rw [this]
          exact ⟨rfl, rfl, rfl, rfl⟩
        · split at h
          · injection h with h
            subst h
            exact ⟨rfl, rfl, rfl, rfl⟩
          · have := (writeCtrl_ctrls dev ps n.str c _ ps2 h).2
            rw [this]
            exact ⟨rfl, rfl, rfl, rfl⟩

/-- `SetControls` never touches the counters, ready index or done
marker, whether it runs to completion or aborts on a write error. -/
theorem setControls_counters (dev : Dev) :
    ∀ (pairs : List (TObj × TObj)) (ps : PState),
      (SetControls dev ps pairs).1.sess.counter0 = ps.sess.counter0 ∧
      (SetControls dev ps pairs).1.sess.counter1 = ps.sess.counter1 ∧
      (SetControls dev ps pairs).1.sess.bufrdy = ps.sess.bufrdy ∧
      (SetControls dev ps pairs).1.sess.bufdone = ps.sess.bufdone
  | [], ps => ⟨rfl, rfl, rfl, rfl⟩
  | (n, v) :: rest, ps => by
      simp only [SetControls]
      cases ha : applyPair dev ps n v with
      | error e => exact ⟨rfl, rfl, rfl, rfl⟩
      | ok ps2 =>
          have h1 := applyPair_counters dev ps n v ps2 ha
          have h2 := setControls_counters dev rest ps2
          exact ⟨h2.1.trans h1.1, h2.2.1.trans h1.2.1,
                 h2.2.2.1.trans h1.2.2.1, h2.2.2.2.trans h1.2.2.2⟩

/-- Every modelled operation preserves the counter invariant. -/
theorem stepOp_inv (c : V4L2C) (op : Op) (h : CounterInv c) : CounterInv (stepOp c op) := by
  cases op with
  | start k => exact startCapture_inv k c h
  | stop => exact stopCapture_inv c h
  | ready dq rq => exact bufferReady_inv c dq rq h
  | image hp ok => exact getImage_inv c hp ok h
  | orient d => exact h
  | mirrorSet x y => exact h
  | greyShift n => exact h
  | params dev ctrls vals pairs =>
      have hc := setControls_counters dev pairs ⟨c, ctrls, vals⟩
      unfold stepOp
      constructor
      · rw [hc.1, hc.2.1]
        exact h.1
      · rw [hc.1, hc.2.1, hc.2.2.1, hc.2.2.2]
        exact h.2

/-- The invariant survives any operation sequence. -/
theorem runOps_inv : ∀ (ops : List Op) (c : V4L2C), CounterInv c → CounterInv (runOps c ops)
  | [], _, h => h
  | op :: rest, c, h => runOps_inv rest (stepOp c op) (stepOp_inv c op h)

/-- C9: starting from a freshly opened session, after any sequence of
start/stop/ready-event/getImage/orientation/mirror/greyshift/parameters
operations the frames-consumed counter never exceeds the frames-captured
counter: the ready handler counts each dequeued frame once while
clearing the done marker, and `GetImage` counts a ready frame at most
once, setting the marker. -/
theorem frames_consumed_le_captured (w h fps : Int) (ops : List Op) :
    (runOps (openState w h fps) ops).counter1 ≤ (runOps (openState w h fps) ops).counter0 :=
  (runOps_inv ops (openState w h fps)
    ⟨Nat.le_refl 0, fun hb _ => by simp [openState] at hb⟩).1

end V4l2
